import Mathlib

/-!
Verification of the `controls` lifecycle supervisor (Go package
`github.com/phpboyscout/controls`).

The embedding translates the package's data model and operations into pure
Lean functions:

* Go side effects (service operations invoked, log lines emitted) are
  recorded in an explicit event trace (`Trace`), so "operation invoked
  exactly once, in registration order" becomes an equation on traces.
* Service operations (`StartFunc`, `StopFunc`, `StatusFunc`) are modelled as
  trace transformers; the `context.Context` argument carried by the Go
  function types is elided (no claim depends on it, and the registry in
  `services.go` invokes the operations without it).
* Channels are modelled by their observable content: the errors channel as a
  list of forwarded error texts, the control-message channel as the list of
  messages the dispatch loop processes, the facade `Stop` as returning the
  message it sends.
* Mutexes are elided: the locked sections are already sequential in the
  model, and the dispatch loop serializes Stop/Status handling.
* `Services.start` fans the start operations out concurrently in Go and
  blocks until all return; the model runs them in spawn (registration)
  order.  Claims about start concern only per-service invocation counts,
  which every interleaving shares.
* The two watcher goroutines (signal handler, error/context handler) are
  modelled as transition systems consuming the sequence of channel events
  they would receive and emitting log/stop-request actions.
-/

/-- Observable events: service operations being invoked (tagged with the
service name) and log lines at the three levels used by the controller. -/
inductive Event where
  | startEv (name : String)
  | stopEv (name : String)
  | statusEv (name : String)
  | logWarn (msg : String)
  | logError (msg : String)
  | logInfo (msg : String)
deriving DecidableEq, Repr

abbrev Trace := List Event

/-- Go `type StartFunc func(context.Context) error`: a start operation may
affect the world (trace) and return an error (`some msg`) or nil (`none`). -/
abbrev StartFunc := Trace → Trace × Option String

/-- Go `type StopFunc func(context.Context)`. -/
abbrev StopFunc := Trace → Trace

/-- Go `type StatusFunc func()`. -/
abbrev StatusFunc := Trace → Trace

/-- Go `type State string` with the four constants declared in
`controls.go`. -/
inductive State where
  | unknown
  | running
  | stopping
  | stopped
deriving DecidableEq, Repr

/-- Go `type Message string` with the two constants `Stop` and `Status`. -/
inductive Message where
  | stop
  | status
deriving DecidableEq, Repr

/-- Go `type Service struct` from `services.go`. -/
structure Service where
  Name : String
  Start : StartFunc
  Stop : StopFunc
  Status : StatusFunc

/-- Go `type Services struct` from `services.go` (the mutex is elided; the
locked loops are sequential in the model). -/
structure Services where
  services : List Service

/-- `func (q *Services) add(s Service)`: append under lock. -/
def Services.add (q : Services) (s : Service) : Services :=
  { q with services := q.services ++ [s] }

/-- The loop body of `Services.start`: each registered service's start
operation runs (in Go, in its own goroutine; here in spawn order) and a
returned non-nil error is forwarded to the errors channel buffer. -/
def startLoop : List Service → Trace → List String → Trace × List String
  | [], tr, errs => (tr, errs)
  | s :: rest, tr, errs =>
    match s.Start tr with
    | (tr1, some msg) => startLoop rest tr1 (errs ++ [msg])
    | (tr1, none) => startLoop rest tr1 errs

/-- `func (q *Services) start(errChan chan error)`: fan out every start
operation and wait for all of them; errors go to `errChan` (modelled as the
returned list of error texts). -/
def Services.start (q : Services) (tr : Trace) (errs : List String) :
    Trace × List String :=
  startLoop q.services tr errs

/-- The loop body of `Services.stop`: invoke each stop operation strictly
sequentially in registration order. -/
def stopLoop : List Service → Trace → Trace
  | [], tr => tr
  | s :: rest, tr => stopLoop rest (s.Stop tr)

/-- `func (q *Services) stop() int`: sequential stop of every service, in
registration order, returning `len(q.services)`. -/
def Services.stop (q : Services) (tr : Trace) : Trace × Nat :=
  (stopLoop q.services tr, q.services.length)

/-- The loop body of `Services.status`. -/
def statusLoop : List Service → Trace → Trace
  | [], tr => tr
  | s :: rest, tr => statusLoop rest (s.Status tr)

/-- `func (q *Services) status()`: sequential status probe of every service,
in registration order. -/
def Services.status (q : Services) (tr : Trace) : Trace :=
  statusLoop q.services tr

/-- Go `type Controller struct`: `state`, the registry, the wait-group
counter (`wg`, an integer join counter), the errors-channel content, and the
trace standing for the logger's output interleaved with service-operation
invocations.  `ctx`, the channels themselves and the mutexes are modelled
externally (see the file header). -/
structure Controller where
  state : State
  services : Services
  wg : Int
  errs : List String
  trace : Trace

def Controller.GetState (c : Controller) : State := c.state

def Controller.SetState (c : Controller) (s : State) : Controller :=
  { c with state := s }

def Controller.IsRunning (c : Controller) : Bool :=
  decide (c.GetState = State.running)

def Controller.IsStopped (c : Controller) : Bool :=
  decide (c.GetState = State.stopped)

def Controller.IsStopping (c : Controller) : Bool :=
  decide (c.GetState = State.stopping)

/-- `func (c *Controller) Register(id, start, stop, status)`. -/
def Controller.Register (c : Controller) (id : String) ( start : StartFunc)
    ( stop : StopFunc) ( status : StatusFunc) : Controller :=
  { c with services :=
      c.services.add { Name := id, Start := start, Stop := stop, Status := status } }

/-- `func (c *Controller) Start()`: spawn the control loop (modelled
separately as `Controller.processMsgs` and the watchers), add the number of
registered services to the wait group, fan out `services.start` (which
blocks until every start operation has returned), then set state Running. -/
def Controller.Start (c : Controller) : Controller :=
  let adding := c.services.services.length
  let c1 := { c with wg := c.wg + (adding : Int) }
  let r := Services.start c1.services c1.trace c1.errs
  Controller.SetState { c1 with trace := r.1, errs := r.2 } State.running

/-- `func (c *Controller) Stop()`: set state Stopping, then send `Stop` on
the control channel (the sent message is returned). -/
def Controller.Stop (c : Controller) : Controller × Message :=
  (Controller.SetState c State.stopping, Message.stop)

/-- `func (c *Controller) handleStopMessage()`: the stop-sequence handler.
If Running, log the warning and move to Stopping; then, if Stopping, run
`services.stop`, add `0 - count` to the wait group, set state Stopped and
log the info line. -/
def Controller.handleStopMessage (c : Controller) : Controller :=
  let c1 :=
    if c.IsRunning then
      Controller.SetState
        { c with trace := c.trace ++ [Event.logWarn "Stopping Services"] }
        State.stopping
    else c
  if c1.IsStopping then
    let r := Services.stop c1.services c1.trace
    let c2 := { c1 with trace := r.1, wg := c1.wg + (0 - (r.2 : Int)) }
    let c3 := Controller.SetState c2 State.stopped
    { c3 with trace := c3.trace ++ [Event.logInfo "Stopped"] }
  else c1

/-- One iteration of `func (c *Controller) processControlMessages()`:
dispatch a received control message. -/
def Controller.processMsg (c : Controller) (msg : Message) : Controller :=
  match msg with
  | Message.stop => c.handleStopMessage
  | Message.status => { c with trace := Services.status c.services c.trace }

/-- The dispatch loop processing a finite sequence of control messages. -/
def Controller.processMsgs (c : Controller) : List Message → Controller
  | [] => c
  | m :: rest => Controller.processMsgs (c.processMsg m) rest

/-! ### Wait-group panic semantics

`Controller.handleStopMessage` above models the join counter as unbounded
integer arithmetic, which is faithful exactly on runs where the counter
never goes negative (the canonical Start → first-shutdown lifecycle).  Go's
`sync.WaitGroup.Add`, however, panics when the counter would become
negative, and the panic is unrecovered anywhere in the package, so such a
run crashes before the statements that follow the `Add`.  The definitions
below model that path explicitly. -/

/-- `sync.WaitGroup.Add(delta)`: the counter must stay non-negative; a
delta that would make it negative is a panic (`none`). -/
def wgAdd (counter : Int) (delta : Int) : Option Int :=
  if counter + delta < 0 then none
  else some (counter + delta)

/-- Outcome of a handler run under panic-aware wait-group semantics:
either the updated controller, or an unrecovered panic carrying the
controller as it was at the moment `wg.Add` panicked (every effect
sequenced before the `Add` — in particular the stop operations — has
already happened; everything after it has not). -/
inductive StepResult where
  | ok (c : Controller)
  | panicked (c : Controller)

/-- `handleStopMessage` with faithful `sync.WaitGroup.Add` semantics: the
stop operations run first (`c.services.stop()`), then `c.wg.Add(0 - count)`
— which panics when the counter would go negative, before `SetState(Stopped)`
and the info log line are reached. -/
def Controller.handleStopMessageWG (c : Controller) : StepResult :=
  let c1 :=
    if c.IsRunning then
      Controller.SetState
        { c with trace := c.trace ++ [Event.logWarn "Stopping Services"] }
        State.stopping
    else c
  if c1.IsStopping then
    let r := Services.stop c1.services c1.trace
    let c2 := { c1 with trace := r.1 }
    match wgAdd c2.wg (0 - (r.2 : Int)) with
    | none => StepResult.panicked c2
    | some w =>
      let c3 := Controller.SetState { c2 with wg := w } State.stopped
      StepResult.ok { c3 with trace := c3.trace ++ [Event.logInfo "Stopped"] }
  else StepResult.ok c1

/-- One dispatch-loop iteration under panic-aware wait-group semantics. -/
def Controller.processMsgWG (c : Controller) (msg : Message) : StepResult :=
  match msg with
  | Message.stop => c.handleStopMessageWG
  | Message.status =>
    StepResult.ok { c with trace := Services.status c.services c.trace }

/-! ### The watcher goroutines -/

/-- Inputs the error/context-watcher goroutine can receive: a value on the
errors channel, or the context's done channel becoming readable (which then
stays readable forever, so it can fire repeatedly). -/
inductive WatcherInput where
  | errRecv (msg : String)
  | ctxDone
deriving DecidableEq, Repr

/-- Actions the error/context watcher performs: log lines and invocations of
the stop-request entry point `c.Stop()`. -/
inductive WatcherAction where
  | actLogError (msg : String)
  | actLogWarn (msg : String)
  | stopRequest
deriving DecidableEq, Repr

/-- What the signal-watcher goroutine of `startSignalHandler` does, given
the sequence of signals delivered on the signal channel: it performs a
single receive, logs the signal and calls `c.Stop()` (a stop request), then
terminates — later signals are never received.  The `Bool` argument is
whether the watcher is still alive. -/
def signalWatcherRun : Bool → List String → List WatcherAction
  | _, [] => []
  | false, _ :: _ => []
  | true, sig :: rest =>
    WatcherAction.actLogWarn ("Received signal: " ++ sig) ::
      WatcherAction.stopRequest :: signalWatcherRun false rest

/-- One iteration of the `select` loop in `startErrorAndContextHandler`,
parameterised by the `ctxCancelled` flag: an error is logged (nothing else);
context done-ness logs a warning and issues a stop request the first time
only, guarded by the flag. -/
def errWatcherStep : Bool → WatcherInput → Bool × List WatcherAction
  | flag, WatcherInput.errRecv msg => (flag, [WatcherAction.actLogError msg])
  | flag, WatcherInput.ctxDone =>
    if flag then (flag, [])
    else (true, [WatcherAction.actLogWarn "Context cancelled",
                 WatcherAction.stopRequest])

/-- The `for { select { ... } }` loop of `startErrorAndContextHandler` run
over a finite sequence of received inputs. -/
def errWatcherRun : Bool → List WatcherInput → Bool × List WatcherAction
  | flag, [] => (flag, [])
  | flag, i :: rest =>
    let r := errWatcherStep flag i
    let r2 := errWatcherRun r.1 rest
    (r2.1, r.2 ++ r2.2)

/-- Number of stop requests among a list of watcher actions. -/
def countStopReq (as : List WatcherAction) : Nat :=
  as.countP fun a =>
    match a with
    | WatcherAction.stopRequest => true
    | _ => false

/-- Effect of one watcher action on the controller: log actions append to
the trace; a stop request performs the facade `c.Stop()` (set state
Stopping, send a `Stop` message). -/
def Controller.applyAction : Controller → WatcherAction → Controller × List Message
  | c, WatcherAction.actLogError msg =>
    ({ c with trace := c.trace ++ [Event.logError msg] }, [])
  | c, WatcherAction.actLogWarn msg =>
    ({ c with trace := c.trace ++ [Event.logWarn msg] }, [])
  | c, WatcherAction.stopRequest =>
    let p := c.Stop
    (p.1, [p.2])

/-- Effect of a sequence of watcher actions, collecting the control messages
they send. -/
def Controller.applyActions : Controller → List WatcherAction → Controller × List Message
  | c, [] => (c, [])
  | c, a :: rest =>
    let r := c.applyAction a
    let r2 := r.1.applyActions rest
    (r2.1, r.2 ++ r2.2)

/-! ### Option-style registration (facade surface from `controls.go`) -/

/-- Go `type ServiceOption func(*Service)` modelled functionally. -/
abbrev ServiceOption := Service → Service

/-- `func WithStart(fn StartFunc) ServiceOption`. -/
def WithStart (fn : StartFunc) : ServiceOption :=
  fun s => { s with Start := fn }

/-- `func WithStop(fn StopFunc) ServiceOption`. -/
def WithStop (fn : StopFunc) : ServiceOption :=
  fun s => { s with Stop := fn }

/-- `func WithStatus(fn StatusFunc) ServiceOption`. -/
def WithStatus (fn : StatusFunc) : ServiceOption :=
  fun s => { s with Status := fn }

/-- Modelled from the spec: the defaults a service's unset operations take
under option-style registration — "unset operations default to no-ops".
The op-code implementing this default is not among the sources (only the
`Controllable` interface declares `Register(id string, opts ...ServiceOption)`
and the tests call it); the no-op start returns nil. -/
def noopService (id : String) : Service :=
  { Name := id
  , Start := fun tr => (tr, none)
  , Stop := fun tr => tr
  , Status := fun tr => tr }

/-- Modelled from the spec: option-style registration builds a service from
the no-op defaults by applying each option setter in order. -/
def buildService (id : String) (opts : List ServiceOption) : Service :=
  opts.foldl (fun s o => o s) (noopService id)

/-- Modelled from the spec: the option-style `Register(id, opts...)` of the
`Controllable` interface appends the built service to the registry. -/
def Controller.RegisterOpts (c : Controller) (id : String)
    (opts : List ServiceOption) : Controller :=
  { c with services := c.services.add (buildService id opts) }

/-! ### Instrumented (probe) services

Mirroring the test harness (`StateCounters` in the package tests), a probe
service records each invocation of each of its operations in the trace,
tagged with the service's name. -/

/-- A service whose operations only record their own invocation. -/
def probeService (name : String) : Service :=
  { Name := name
  , Start := fun tr => (tr ++ [Event.startEv name], none)
  , Stop := fun tr => tr ++ [Event.stopEv name]
  , Status := fun tr => tr ++ [Event.statusEv name] }

/-- A registry of probe services, one per name, in the given order. -/
def probeServices (names : List String) : Services :=
  { services := names.map probeService }

/-- A concrete controller in state Running with one probe service, as built
by the package tests (`getNewController` + `Start`). -/
def exRunning : Controller :=
  { state := State.running
  , services := probeServices ["test"]
  , wg := 1
  , errs := []
  , trace := [] }

/-- A concrete controller in state Stopped with one probe service. -/
def exStopped : Controller :=
  { state := State.stopped
  , services := probeServices ["test"]
  , wg := 0
  , errs := []
  , trace := [] }

/-! ### Fold lemmas for probe registries -/

theorem stopLoop_probe (names : List String) :
    ∀ tr : Trace,
      stopLoop (names.map probeService) tr = tr ++ names.map Event.stopEv := by
  induction names with
  | nil => intro tr; simp [stopLoop]
  | cons n ns ih =>
    intro tr
    simp [stopLoop, probeService, ih (tr ++ [Event.stopEv n])]

theorem statusLoop_probe (names : List String) :
    ∀ tr : Trace,
      statusLoop (names.map probeService) tr = tr ++ names.map Event.statusEv := by
  induction names with
  | nil => intro tr; simp [statusLoop]
  | cons n ns ih =>
    intro tr
    simp [statusLoop, probeService, ih (tr ++ [Event.statusEv n])]

theorem startLoop_probe (names : List String) :
    ∀ (tr : Trace) (errs : List String),
      startLoop (names.map probeService) tr errs =
        (tr ++ names.map Event.startEv, errs) := by
  induction names with
  | nil => intro tr errs; simp [startLoop]
  | cons n ns ih =>
    intro tr errs
    simp [startLoop, probeService, ih (tr ++ [Event.startEv n]) errs]

/-! ### Closed forms of the stop-sequence handler -/

/-- Running: the handler takes both branches — warning, stop of every
service in order, wait-group adjustment by `0 - count`, state Stopped,
info line. -/
theorem hsm_running (c : Controller) (h : c.state = State.running) :
    c.handleStopMessage =
      { c with
          state := State.stopped
          wg := c.wg + (0 - (c.services.services.length : Int))
          trace := stopLoop c.services.services
              (c.trace ++ [Event.logWarn "Stopping Services"]) ++
            [Event.logInfo "Stopped"] } := by
  rcases c with ⟨st, svcs, wg, errs, tr⟩
  cases h
  rfl

/-- Stopping: the first guard is false (no warning), the second runs the
full stop sequence. -/
theorem hsm_stopping (c : Controller) (h : c.state = State.stopping) :
    c.handleStopMessage =
      { c with
          state := State.stopped
          wg := c.wg + (0 - (c.services.services.length : Int))
          trace := stopLoop c.services.services c.trace ++
            [Event.logInfo "Stopped"] } := by
  rcases c with ⟨st, svcs, wg, errs, tr⟩
  cases h
  rfl

/-! ### Claims about the dispatch loop and the facade -/

/-- Claim C1: for every controller whose state is Running and every list of
registered services, processing a single Stop control message invokes every
registered service's stop operation exactly once, in registration order, and
leaves the state Stopped — the full Running→Stopping→Stopped transition
completes in one message. -/
theorem single_stop_message_completes_shutdown (names : List String)
    (c : Controller) (hs : c.services = probeServices names)
    (hr : c.state = State.running) :
    (c.processMsg Message.stop).state = State.stopped ∧
    (c.processMsg Message.stop).trace =
      c.trace ++ [Event.logWarn "Stopping Services"] ++
        names.map Event.stopEv ++ [Event.logInfo "Stopped"] := by
  constructor
  · simp [Controller.processMsg, hsm_running c hr]
  · simp [Controller.processMsg, hsm_running c hr, hs, probeServices,
      stopLoop_probe]

theorem single_stop_message_completes_shutdown_spot :
    (exRunning.processMsg Message.stop).state = State.stopped ∧
    (exRunning.processMsg Message.stop).trace =
      exRunning.trace ++ [Event.logWarn "Stopping Services"] ++
        ["test"].map Event.stopEv ++ [Event.logInfo "Stopped"] :=
  single_stop_message_completes_shutdown ["test"] exRunning rfl rfl

/-- Claim C2: when `Start` returns, every registered service's start
operation has been invoked exactly once (the appended trace carries one
start event per registration entry) and the state is Running; in the
embedding, `Services.start` runs to completion before the state field is
set, mirroring the statement order of the Go `Start`. -/
theorem start_invokes_every_start_once_then_running (names : List String)
    (c : Controller) (hs : c.services = probeServices names) :
    (c.Start).state = State.running ∧
    (c.Start).trace = c.trace ++ names.map Event.startEv ∧
    (c.Start).errs = c.errs := by
  refine ⟨rfl, ?_, ?_⟩ <;>
    simp [Controller.Start, Controller.SetState, Services.start, hs,
      probeServices, startLoop_probe]

theorem start_invokes_every_start_once_then_running_spot :
    (Controller.Start
        { state := State.unknown, services := probeServices ["a", "b"],
          wg := 0, errs := [], trace := [] }).state = State.running ∧
    (Controller.Start
        { state := State.unknown, services := probeServices ["a", "b"],
          wg := 0, errs := [], trace := [] }).trace =
      [] ++ ["a", "b"].map Event.startEv ∧
    (Controller.Start
        { state := State.unknown, services := probeServices ["a", "b"],
          wg := 0, errs := [], trace := [] }).errs = [] :=
  start_invokes_every_start_once_then_running ["a", "b"] _ rfl

/-- Claim C5: for every N and every list of registered services, processing
N consecutive Status control messages invokes every registered status
operation exactly N times, sequentially in registration order, and changes
nothing but the trace (state, registry, join counter and errors channel are
untouched). -/
theorem status_messages_probe_only (n : Nat) (names : List String) :
    ∀ c : Controller, c.services = probeServices names →
      Controller.processMsgs c (List.replicate n Message.status) =
        { c with trace :=
            c.trace ++ (List.replicate n (names.map Event.statusEv)).flatten } := by
  induction n with
  | zero => intro c _; simp [Controller.processMsgs]
  | succ m ih =>
    intro c hs
    have hstep : c.processMsg Message.status =
        { c with trace := c.trace ++ names.map Event.statusEv } := by
      simp [Controller.processMsg, Services.status, hs, probeServices,
        statusLoop_probe]
    rw [List.replicate_succ]
    show Controller.processMsgs (c.processMsg Message.status) _ = _
    rw [hstep, ih { c with trace := c.trace ++ names.map Event.statusEv } hs]
    simp [List.replicate_succ]

theorem status_messages_probe_only_spot :
    Controller.processMsgs exRunning (List.replicate 3 Message.status) =
      { exRunning with trace :=
          exRunning.trace ++
            (List.replicate 3 (["test"].map Event.statusEv)).flatten } :=
  status_messages_probe_only 3 ["test"] exRunning rfl

/-- Claim C9: a Stop control message processed while the state is Stopped or
Unknown is a complete no-op — both guards of the stop-sequence handler are
false, so no stop operation runs, the join counter is untouched, nothing is
logged and the state is unchanged. -/
theorem stop_message_noop_when_stopped_or_unknown (c : Controller)
    (h : c.state = State.stopped ∨ c.state = State.unknown) :
    c.processMsg Message.stop = c := by
  show c.handleStopMessage = c
  rcases c with ⟨st, svcs, wg, errs, tr⟩
  rcases h with h | h <;> cases h <;> rfl

theorem stop_message_noop_when_stopped_or_unknown_spot :
    exStopped.processMsg Message.stop = exStopped :=
  stop_message_noop_when_stopped_or_unknown exStopped (Or.inl rfl)

/-- Claim C6: `Start` adds the number of registered services to the join
counter; the stop sequence (run when the handler observes Running or
Stopping) adjusts it downward by exactly the count returned by
`Services.stop`, which is the registry length. -/
theorem join_counter_adjustments (c : Controller) (tr : Trace) :
    (c.Start).wg = c.wg + (c.services.services.length : Int) ∧
    (Services.stop c.services tr).2 = c.services.services.length ∧
    ((c.state = State.running ∨ c.state = State.stopping) →
      (c.handleStopMessage).wg =
        c.wg - ((Services.stop c.services tr).2 : Int)) := by
  refine ⟨?_, rfl, ?_⟩
  · simp [Controller.Start, Controller.SetState, Services.start]
  · rintro (h | h)
    · rw [hsm_running c h]; simp [Services.stop]; omega
    · rw [hsm_stopping c h]; simp [Services.stop]; omega

theorem join_counter_adjustments_spot :
    (exRunning.Start).wg =
      exRunning.wg + (exRunning.services.services.length : Int) ∧
    (Services.stop exRunning.services []).2 =
      exRunning.services.services.length ∧
    (exRunning.handleStopMessage).wg =
      exRunning.wg - ((Services.stop exRunning.services []).2 : Int) :=
  ⟨(join_counter_adjustments exRunning []).1,
   (join_counter_adjustments exRunning []).2.1,
   (join_counter_adjustments exRunning []).2.2 (Or.inl rfl)⟩

/-- When the wait-group counter is at least the registry size, the
panic-aware handler agrees with the panic-free `handleStopMessage`: the
`Int` model is faithful on every run whose counter stays non-negative. -/
theorem handleStopMessageWG_agrees (c : Controller)
    (h : (c.services.services.length : Int) ≤ c.wg) :
    c.handleStopMessageWG = StepResult.ok c.handleStopMessage := by
  rcases c with ⟨st, svcs, wg, errs, tr⟩
  simp only at h
  have hnn : ¬ (wg < (svcs.services.length : Int)) := by omega
  cases st <;>
    simp [Controller.handleStopMessageWG, Controller.handleStopMessage,
      Controller.IsRunning, Controller.IsStopping, Controller.GetState,
      Controller.SetState, Services.stop, wgAdd, hnn]

/-- When the handler enters the stop branch from state Stopping with a
counter smaller than the registry size, `wg.Add(0 - count)` panics: the
stop operations have already run, but the state never becomes Stopped and
no info line is logged. -/
theorem hsm_wg_panics_of_low_counter (c : Controller)
    (h : c.state = State.stopping)
    (hw : c.wg < (c.services.services.length : Int)) :
    c.handleStopMessageWG =
      StepResult.panicked
        { c with trace := stopLoop c.services.services c.trace } := by
  rcases c with ⟨st, svcs, wg, errs, tr⟩
  cases h
  simp only at hw
  simp [Controller.handleStopMessageWG, Controller.IsRunning,
    Controller.IsStopping, Controller.GetState, Services.stop, wgAdd, hw]

/-- Claim C10 counterexample: a facade `Stop` issued while the state is
already Stopped (join counter back at 0 after the first shutdown) does
re-enter Stopping and re-invoke the registered stop operation, but the
claimed second join-counter decrement never happens: `wg.Add(0 - 1)` would
drive the counter to -1, which panics — the run dies with the counter
untouched, the state still Stopping and no "Stopped" info line, instead of
completing the stop sequence a second time. -/
theorem facade_stop_from_stopped_panics_on_wait_group :
    (exStopped.Stop).1.processMsgWG (exStopped.Stop).2 =
      StepResult.panicked
        { state := State.stopping
        , services := probeServices ["test"]
        , wg := 0
        , errs := []
        , trace := [Event.stopEv "test"] } := rfl

/-- Claim C10 (amended): the facade `Stop` unconditionally sets the state
to Stopping and sends the Stop message, regardless of the current state; a
facade `Stop` issued while the state is already Stopped therefore re-enters
Stopping and the resulting message re-invokes every registered stop
operation a second time — once-only shutdown is not enforced — but when
the join counter is smaller than the registry size (as it is after a
completed shutdown), the second wait-group adjustment panics, crashing the
run before the state is set to Stopped, before the info line, and without
decrementing the counter. -/
theorem facade_stop_when_stopped_reinvokes_stops_then_panics
    (names : List String) (c : Controller)
    (hs : c.services = probeServices names)
    (hw : c.wg < (names.length : Int))
    (_h : c.state = State.stopped) :
    (c.Stop).1.state = State.stopping ∧
    (c.Stop).2 = Message.stop ∧
    (c.Stop).1.processMsgWG (c.Stop).2 =
      StepResult.panicked
        { c with state := State.stopping
               , trace := c.trace ++ names.map Event.stopEv } := by
  refine ⟨rfl, rfl, ?_⟩
  have hrun : (c.Stop).1.processMsgWG (c.Stop).2 =
      ({ c with state := State.stopping } : Controller).handleStopMessageWG :=
    rfl
  rw [hrun, hsm_wg_panics_of_low_counter { c with state := State.stopping }
    rfl (by simp [hs, probeServices]; exact hw)]
  simp [hs, probeServices, stopLoop_probe]

theorem facade_stop_when_stopped_reinvokes_stops_then_panics_spot :
    (exStopped.Stop).1.state = State.stopping ∧
    (exStopped.Stop).2 = Message.stop ∧
    (exStopped.Stop).1.processMsgWG (exStopped.Stop).2 =
      StepResult.panicked
        { exStopped with state := State.stopping
                       , trace := exStopped.trace ++
                           ["test"].map Event.stopEv } :=
  facade_stop_when_stopped_reinvokes_stops_then_panics ["test"] exStopped
    rfl (by decide) rfl

/-! ### Watcher lemmas -/

/-- A terminated signal watcher emits nothing, whatever else arrives on the
signal channel. -/
theorem signalWatcherRun_dead (l : List String) :
    signalWatcherRun false l = [] := by
  cases l <;> rfl

/-- Once `ctxCancelled` is set, the error/context watcher never issues
another stop request. -/
theorem errWatcherRun_flagged_no_stop (inputs : List WatcherInput) :
    countStopReq (errWatcherRun true inputs).2 = 0 := by
  induction inputs with
  | nil => rfl
  | cons i rest ih =>
    cases i <;>
      simp [errWatcherRun, errWatcherStep, countStopReq, List.countP_cons] <;>
      simpa [countStopReq] using ih

/-- On a stream made only of errors, the watcher just logs each error text,
in order, and the `ctxCancelled` flag is untouched. -/
theorem errWatcherRun_errors_only (ms : List String) :
    ∀ flag : Bool,
      errWatcherRun flag (ms.map WatcherInput.errRecv) =
        (flag, ms.map WatcherAction.actLogError) := by
  induction ms with
  | nil => intro flag; rfl
  | cons m rest ih =>
    intro flag
    simp [errWatcherRun, errWatcherStep, ih flag]

/-- Applying a pure sequence of error-log actions only appends the log
lines to the trace: state, registry, join counter and errors buffer are all
unchanged, and no control message is sent. -/
theorem applyActions_error_logs (ms : List String) :
    ∀ c : Controller,
      Controller.applyActions c (ms.map WatcherAction.actLogError) =
        ({ c with trace := c.trace ++ ms.map Event.logError },
          ([] : List Message)) := by
  induction ms with
  | nil => intro c; simp [Controller.applyActions]
  | cons m rest ih =>
    intro c
    simp [Controller.applyActions, Controller.applyAction,
      ih { c with trace := c.trace ++ [Event.logError m] }]

/-- Claim C3: each asynchronous trigger issues the stop request at most once
per execution.  The signal watcher reacts to the first signal only — it
logs it, issues one stop request and terminates, so the whole run carries
exactly one stop request when any signal arrives and none otherwise.  The
error/context watcher, started with `ctxCancelled = false`, issues exactly
one stop request over any input sequence that contains context done-ness
(which can repeat, since the done channel stays readable) and none
otherwise. -/
theorem watchers_issue_stop_request_at_most_once
    (sigs : List String) (sig : String) (rest : List String)
    (inputs : List WatcherInput) :
    countStopReq (signalWatcherRun true sigs) =
      (if sigs.isEmpty then 0 else 1) ∧
    signalWatcherRun true (sig :: rest) =
      [WatcherAction.actLogWarn ("Received signal: " ++ sig),
       WatcherAction.stopRequest] ∧
    countStopReq (errWatcherRun false inputs).2 =
      (if WatcherInput.ctxDone ∈ inputs then 1 else 0) := by
  refine ⟨?_, ?_, ?_⟩
  · cases sigs with
    | nil => rfl
    | cons s l =>
      simp [signalWatcherRun, signalWatcherRun_dead, countStopReq]
  · simp [signalWatcherRun, signalWatcherRun_dead]
  · induction inputs with
    | nil => rfl
    | cons i l ih =>
      cases i with
      | errRecv m =>
        simp [errWatcherRun, errWatcherStep, countStopReq,
          List.countP_append] at ih ⊢
        simpa [countStopReq] using ih
      | ctxDone =>
        simp [errWatcherRun, errWatcherStep, countStopReq,
          List.countP_append, List.countP_cons]
        simpa [countStopReq] using errWatcherRun_flagged_no_stop l

/-- Claim C4: every error value received on the errors channel is logged
verbatim (one `logError` line carrying exactly the received text, in
arrival order), triggers no stop sequence (no control message is sent, no
stop request issued) and leaves the controller — state included — unchanged
except for the appended log lines. -/
theorem errors_are_logged_verbatim_and_change_nothing
    (c : Controller) (flag : Bool) (ms : List String) :
    (errWatcherRun flag (ms.map WatcherInput.errRecv)).1 = flag ∧
    Controller.applyActions c
        (errWatcherRun flag (ms.map WatcherInput.errRecv)).2 =
      ({ c with trace := c.trace ++ ms.map Event.logError },
        ([] : List Message)) := by
  rw [errWatcherRun_errors_only ms flag]
  exact ⟨rfl, applyActions_error_logs ms c⟩

/-- Claim C7 counterexample: a stop sequence triggered through the facade
`Stop` (the path every signal, cancellation and direct facade call takes)
pre-sets the state to Stopping, so the handler's Running guard is false and
the run completes — state Stopped, info line "Stopped" — without ever
emitting the "Stopping Services" warning. -/
theorem facade_triggered_stop_sequence_omits_warning :
    ((exRunning.Stop).1.processMsg (exRunning.Stop).2).state =
      State.stopped ∧
    Event.logInfo "Stopped" ∈
      ((exRunning.Stop).1.processMsg (exRunning.Stop).2).trace ∧
    Event.logWarn "Stopping Services" ∉
      ((exRunning.Stop).1.processMsg (exRunning.Stop).2).trace := by
  refine ⟨rfl, ?_, ?_⟩ <;> decide

/-- Claim C7 (amended): every run of the stop sequence emits the info line
"Stopped" when stopping completes; the warning "Stopping Services" is
emitted exactly when the Stop message is processed while the state is still
Running (a Stop message sent directly while Running) — triggers that go
through the facade stop entry point (facade `Stop` call, signal,
cancellation) pre-set the state to Stopping and run the sequence without
the warning. -/
theorem stop_sequence_logging (names : List String) (c : Controller)
    (hs : c.services = probeServices names)
    (hrs : c.state = State.running ∨ c.state = State.stopping)
    (hw : Event.logWarn "Stopping Services" ∉ c.trace) :
    (c.handleStopMessage).state = State.stopped ∧
    Event.logInfo "Stopped" ∈ (c.handleStopMessage).trace ∧
    (Event.logWarn "Stopping Services" ∈ (c.handleStopMessage).trace ↔
      c.state = State.running) := by
  rcases hrs with h | h
  · rw [hsm_running c h]
    refine ⟨rfl, ?_, ?_⟩ <;>
      simp [hs, probeServices, stopLoop_probe, List.mem_map, h]
  · rw [hsm_stopping c h]
    refine ⟨rfl, ?_, ?_⟩ <;>
      simp [hs, probeServices, stopLoop_probe, List.mem_map, h, hw]

theorem stop_sequence_logging_spot :
    (exRunning.handleStopMessage).state = State.stopped ∧
    Event.logInfo "Stopped" ∈ (exRunning.handleStopMessage).trace ∧
    (Event.logWarn "Stopping Services" ∈ (exRunning.handleStopMessage).trace ↔
      exRunning.state = State.running) :=
  stop_sequence_logging ["test"] exRunning rfl (Or.inl rfl) (by decide)

/-- Claim C8: under option-style registration, each operation left unset by
the supplied option setters keeps its no-op default, so running the
registry-wide start/stop/status over such a service is well defined and has
no effect for the unset operations (and the set operation is exactly the
supplied one).  Shown for each single-setter subset. -/
theorem unset_operations_default_to_noops (id : String) (fn : StartFunc)
    (g : StopFunc) (st : StatusFunc) (tr : Trace) (errs : List String) :
    (buildService id [WithStart fn]).Start = fn ∧
    Services.stop { services := [buildService id [WithStart fn]] } tr =
      (tr, 1) ∧
    Services.status { services := [buildService id [WithStart fn]] } tr =
      tr ∧
    (buildService id [WithStop g]).Stop = g ∧
    Services.start { services := [buildService id [WithStop g]] } tr errs =
      (tr, errs) ∧
    Services.status { services := [buildService id [WithStop g]] } tr = tr ∧
    (buildService id [WithStatus st]).Status = st ∧
    Services.start { services := [buildService id [WithStatus st]] } tr errs =
      (tr, errs) ∧
    Services.stop { services := [buildService id [WithStatus st]] } tr =
      (tr, 1) :=
  ⟨rfl, rfl, rfl, rfl, rfl, rfl, rfl, rfl, rfl⟩
